import Mathlib

/-!
Verification of the risk-scoring resilience pipeline of the
payment-gateway-proxy repository: the circuit breaker
(`src/utils/circuit-breaker.ts`), the retry wrapper (`src/utils/retry.ts`),
the fraud-rule engine (`src/config/fraud-rules.ts`), and the transaction
orchestration (`src/services/payment.service.ts` / `llm.service.ts`).

Modelling conventions:
* JavaScript numbers that carry scores, weights and thresholds are modelled
  as rationals (`ℚ`); the code only compares, adds, and takes `min`/`max` of
  them, so `ℚ` is a faithful model of the values involved.
* Wall-clock instants (`Date.now()`, `new Date()`) are modelled as natural
  numbers (milliseconds); each call that reads the clock takes the current
  instant as an explicit argument.
* A fallible asynchronous operation is modelled as an `Except` value (it
  either resolves with a value or rejects with an error).
-/

/-! ## Data model (`src/types/index.ts`) -/

inductive TransactionStatus where
  | SUCCESS
  | FAILED
  | PENDING
  | PROCESSING
deriving DecidableEq, Repr

structure Transaction where
  id : String
  amount : ℚ
  currency : String
  source : String
  email : String
  provider : Option String := none
  status : TransactionStatus
  riskScore : Option ℚ := none
  explanation : Option String := none
  createdAt : Nat
  updatedAt : Nat
deriving DecidableEq, Repr

inductive RiskLevel where
  | LOW
  | MEDIUM
  | HIGH
  | CRITICAL
deriving DecidableEq, Repr

structure RiskFactor where
  factor : String
  weight : ℚ
  description : String
deriving DecidableEq, Repr

structure RiskAssessment where
  transactionId : String
  riskScore : ℚ
  riskLevel : RiskLevel
  explanation : String
  factors : List RiskFactor
  recommendations : List String
  assessedAt : Nat
deriving DecidableEq, Repr

/-! ## Circuit breaker (`src/utils/circuit-breaker.ts`) -/

inductive CircuitBreakerState where
  | CLOSED
  | OPEN
  | HALF_OPEN
deriving DecidableEq, Repr

/-- Construction options of `CircuitBreaker`.  The fallback function
`() => any` is a pure thunk in the source; we model it by the value it
returns (`fallbackFunction : Option α`, `none` when not configured). -/
structure CircuitBreakerOptions (α : Type) where
  failureThreshold : Nat
  resetTimeout : Nat
  monitoringPeriod : Nat
  fallbackFunction : Option α := none

/-- The mutable fields of a `CircuitBreaker` instance. -/
structure CircuitBreaker where
  state : CircuitBreakerState := .CLOSED
  failureCount : Nat := 0
  successCount : Nat := 0
  lastFailureTime : Option Nat := none
  nextAttempt : Option Nat := none
deriving DecidableEq, Repr

/-- What one `execute` call did: called the operation and returned its value,
called it and re-threw its error, short-circuited to the fallback value, or
short-circuited to the "service unavailable" error. -/
inductive ExecOutcome (ε α : Type) where
  | result (a : α)
  | raised (e : ε)
  | fallback (a : α)
  | unavailable
deriving DecidableEq, Repr

def CircuitBreaker.shouldAttemptReset (cb : CircuitBreaker) (now : Nat) : Bool :=
  match cb.nextAttempt with
  | some t => decide (now ≥ t)
  | none => false

/-- Lines 122–129 of `execute`: an OPEN breaker whose reset timeout has
elapsed moves to HALF_OPEN before the operation is attempted. -/
def CircuitBreaker.checkTransition (cb : CircuitBreaker) (now : Nat) : CircuitBreaker :=
  if cb.state = .OPEN ∧ cb.shouldAttemptReset now = true then
    { cb with state := .HALF_OPEN }
  else cb

def CircuitBreaker.onSuccess (cb : CircuitBreaker) : CircuitBreaker :=
  let cb := { cb with failureCount := 0, successCount := cb.successCount + 1 }
  if cb.state = .HALF_OPEN then { cb with state := .CLOSED } else cb

def CircuitBreaker.onFailure {α : Type} (opts : CircuitBreakerOptions α)
    (cb : CircuitBreaker) (now : Nat) : CircuitBreaker :=
  let cb := { cb with failureCount := cb.failureCount + 1, lastFailureTime := some now }
  if cb.failureCount ≥ opts.failureThreshold then
    { cb with state := .OPEN, nextAttempt := some (now + opts.resetTimeout) }
  else cb

def CircuitBreaker.callFallback {ε α : Type} (opts : CircuitBreakerOptions α) :
    ExecOutcome ε α :=
  match opts.fallbackFunction with
  | some v => .fallback v
  | none => .unavailable

/-- Model of `CircuitBreaker.execute(operation)`: `op` is the outcome the wrapped
operation would have if invoked now; the result pairs the updated breaker
with what the call did. -/
def CircuitBreaker.execute {ε α : Type} (opts : CircuitBreakerOptions α)
    (cb : CircuitBreaker) (now : Nat) (op : Except ε α) :
    CircuitBreaker × ExecOutcome ε α :=
  let cb1 := cb.checkTransition now
  if cb1.state = .OPEN then
    (cb1, CircuitBreaker.callFallback opts)
  else
    match op with
    | .ok a => (cb1.onSuccess, .result a)
    | .error e => (CircuitBreaker.onFailure opts cb1 now, .raised e)

/-- Iterates `n` consecutive `execute` calls whose operation fails with `e`,
all at instant `now`. -/
def CircuitBreaker.applyFailures {ε α : Type} (opts : CircuitBreakerOptions α)
    (cb : CircuitBreaker) (now : Nat) (e : ε) : Nat → CircuitBreaker
  | 0 => cb
  | n + 1 => ((CircuitBreaker.applyFailures opts cb now e n).execute opts now
      (Except.error e)).1

/-! ## Retry service (`src/utils/retry.ts`) -/

structure RetryOptions where
  maxAttempts : Nat
  baseDelay : ℚ
  maxDelay : ℚ
  backoffFactor : ℚ
  jitter : Bool
deriving DecidableEq, Repr

/-- The shipped defaults (env overrides absent). -/
def RetryService.defaultOptions : RetryOptions :=
  { maxAttempts := 3, baseDelay := 1000, maxDelay := 30000,
    backoffFactor := 2, jitter := true }

/-- Model of `calculateDelay`; `rand` stands for the `Math.random()` draw in `[0,1)`. -/
def RetryService.calculateDelay (attempt : Nat) (options : RetryOptions)
    (rand : ℚ) : ℚ :=
  let exponentialDelay :=
    min (options.baseDelay * options.backoffFactor ^ (attempt - 1)) options.maxDelay
  if options.jitter then exponentialDelay * (1/2 + rand * (1/2)) else exponentialDelay

/-- The `for` loop of `RetryService.execute`.  `op i` is the outcome of the
`i`-th invocation of the operation (0-based); `calls` counts invocations made
so far.  The error component is `Option ε` because when the loop body never
runs (`maxAttempts = 0`) the source throws the still-undefined `lastError`,
modelled as `none`.  Returns the overall outcome and the total number of
invocations of the operation. -/
def RetryService.go {ε α : Type} (op : Nat → Except ε α) (maxAttempts : Nat)
    (attempt : Nat) (lastError : Option ε) (calls : Nat) :
    Except (Option ε) α × Nat :=
  if attempt > maxAttempts then (.error lastError, calls)
  else
    match op calls with
    | .ok v => (.ok v, calls + 1)
    | .error e =>
      if attempt = maxAttempts then (.error (some e), calls + 1)
      else RetryService.go op maxAttempts (attempt + 1) (some e) (calls + 1)
termination_by maxAttempts + 1 - attempt
decreasing_by omega

/-- Model of `RetryService.execute(operation, options)` restricted to the data the
claims need: the attempt loop starts at attempt 1 with no error recorded and
no invocation made. -/
def RetryService.execute {ε α : Type} (op : Nat → Except ε α)
    (maxAttempts : Nat) : Except (Option ε) α × Nat :=
  RetryService.go op maxAttempts 1 none 0

/-! ## Fraud rule engine (`src/config/fraud-rules.ts`) -/

inductive CondOperator where
  | gt
  | lt
  | eq
  | contains
  | regex
deriving DecidableEq, Repr

inductive FraudAction where
  | flag
  | block
  | review
deriving DecidableEq, Repr

/-- A condition's comparison value is `any` in the source (numbers and
strings occur in the shipped configuration). -/
inductive JsValue where
  | num (q : ℚ)
  | str (s : String)
deriving DecidableEq, Repr

structure FraudCondition where
  field : String
  operator : CondOperator
  value : JsValue
  description : String
deriving DecidableEq, Repr

structure FraudRule where
  name : String
  enabled : Bool
  weight : ℚ
  conditions : List FraudCondition
  action : FraudAction
deriving DecidableEq, Repr

inductive RiskTolerance where
  | low
  | medium
  | high
deriving DecidableEq, Repr

structure ProviderConfig where
  name : String
  priority : Int
  riskTolerance : RiskTolerance
  enabled : Bool
deriving DecidableEq, Repr

structure RiskThresholds where
  low : ℚ
  medium : ℚ
  high : ℚ
  critical : ℚ
deriving DecidableEq, Repr

structure FraudRuleConfig where
  rules : List FraudRule
  providers : List ProviderConfig
  thresholds : RiskThresholds
deriving DecidableEq, Repr

/-- Result record of `evaluateRiskFromRules`. -/
structure RuleEvalResult where
  score : ℚ
  factors : List RiskFactor
  blockedRules : List String
deriving DecidableEq, Repr

def FraudRuleConfigService.getRules (cfg : FraudRuleConfig) : List FraudRule :=
  cfg.rules.filter (·.enabled)

def FraudRuleConfigService.getProviders (cfg : FraudRuleConfig) : List ProviderConfig :=
  (cfg.providers.filter (·.enabled)).mergeSort (fun a b => a.priority ≤ b.priority)

def FraudRuleConfigService.getThresholds (cfg : FraudRuleConfig) : RiskThresholds :=
  cfg.thresholds

/-- The loop body of `evaluateRiskFromRules` folded over the enabled rules:
accumulates (running score, factors, blocked rule names).
`evalCond c tx` stands for `evaluateCondition(condition, transaction)` —
the dynamic JavaScript field lookup / comparison / regex primitive of lines
121–146, kept as a parameter so every theorem below holds for every
behaviour of that primitive. -/
def FraudRuleConfigService.evalStep (evalCond : FraudCondition → Transaction → Bool)
    (tx : Transaction) (acc : ℚ × List RiskFactor × List String)
    (rule : FraudRule) : ℚ × List RiskFactor × List String :=
  if rule.conditions.all (fun c => evalCond c tx) then
    (acc.1 + rule.weight,
     acc.2.1 ++ [{ factor := rule.name, weight := rule.weight,
                   description := String.intercalate ", "
                     (rule.conditions.map (·.description)) }],
     acc.2.2 ++ if rule.action = .block then [rule.name] else [])
  else acc

def FraudRuleConfigService.evaluateRiskFromRules
    (evalCond : FraudCondition → Transaction → Bool)
    (cfg : FraudRuleConfig) (tx : Transaction) : RuleEvalResult :=
  let acc := (FraudRuleConfigService.getRules cfg).foldl
    (FraudRuleConfigService.evalStep evalCond tx) (0, [], [])
  { score := min 1 acc.1, factors := acc.2.1, blockedRules := acc.2.2 }

def FraudRuleConfigService.getRiskToleranceThreshold : RiskTolerance → ℚ
  | .low => 3/10
  | .medium => 6/10
  | .high => 8/10

/-- Model of `selectProvider(riskScore)`: first enabled provider (ascending priority)
tolerating the score; otherwise `providers[providers.length-1]?.name ||
'paypal'` — note the JavaScript `||` yields `'paypal'` also when the last
provider's name is the empty string. -/
def FraudRuleConfigService.selectProvider (cfg : FraudRuleConfig)
    (riskScore : ℚ) : String :=
  let providers := FraudRuleConfigService.getProviders cfg
  match providers.find? (fun p =>
      riskScore ≤ FraudRuleConfigService.getRiskToleranceThreshold p.riskTolerance) with
  | some p => p.name
  | none =>
    match providers.getLast? with
    | some p => if p.name = "" then "paypal" else p.name
    | none => "paypal"

/-- The embedded default configuration (`getDefaultConfig`), used when the
YAML rule file cannot be read. -/
def FraudRuleConfigService.getDefaultConfig : FraudRuleConfig :=
  { rules := [
      { name := "high_amount_rule", enabled := true, weight := 3/10,
        action := .flag,
        conditions := [{ field := "amount", operator := .gt,
                         value := .num 100000,
                         description := "Transaction amount exceeds $1000" }] }],
    providers := [
      { name := "paypal", priority := 1, riskTolerance := .medium, enabled := true },
      { name := "stripe", priority := 2, riskTolerance := .low, enabled := true }],
    thresholds := { low := 3/10, medium := 6/10, high := 8/10, critical := 9/10 } }

/-! ## LLM service (`src/services/llm.service.ts`) -/

/-- Model of `getFallbackResponse(transaction)`: the deterministic fallback risk
assessment.  `now` is the `new Date()` instant stamped into `assessedAt`. -/
def LLMService.getFallbackResponse (tx : Transaction) (now : Nat) : RiskAssessment :=
  { transactionId := tx.id,
    riskScore := 1/2,
    riskLevel := .MEDIUM,
    explanation := "Risk assessment service temporarily unavailable. Using rule-based fallback assessment.",
    factors := [{ factor := "service_unavailable", weight := 1/2,
                  description := "LLM risk assessment service is currently unavailable (check API credits/connectivity)" }],
    recommendations := ["Manual review required", "Check LLM service configuration",
        "Consider declining if high value"],
    assessedAt := now }

/-- The fields `JSON.parse` yields from the model's reply when it parses:
`riskScore`, `riskLevel`, `explanation`, and the possibly-absent `factors`
and `recommendations` (the source applies `|| []` to the last two).
`riskScore` is whatever number the model produced — the source performs no
range check on it. -/
structure ParsedRisk where
  riskScore : ℚ
  riskLevel : RiskLevel
  explanation : String
  factors : Option (List RiskFactor) := none
  recommendations : Option (List String) := none
deriving DecidableEq, Repr

/-- Model of `parseLMStudioResponse(content, transaction)`.  `parsed` is the result of
stripping markdown fences from `content` and running `JSON.parse` on it (the
string-manipulation and JSON primitives are external; `none` models the parse
throwing, which the `catch` turns into the fallback response). -/
def LLMService.parseLMStudioResponse (parsed : Option ParsedRisk)
    (tx : Transaction) (now : Nat) : RiskAssessment :=
  match parsed with
  | some p =>
    { transactionId := tx.id,
      riskScore := p.riskScore,
      riskLevel := p.riskLevel,
      explanation := p.explanation,
      factors := p.factors.getD [],
      recommendations := p.recommendations.getD [],
      assessedAt := now }
  | none => LLMService.getFallbackResponse tx now

/-- Model of `callLMStudio(transaction)`: `httpResult` is the outcome of the
`POST /chat/completions` — an error when the request failed (rethrown after
logging, lines 115–138), or `ok parsed` when it completed with a body whose
message content parses (or fails to parse) as in `parseLMStudioResponse`. -/
def LLMService.callLMStudio {ε : Type} (httpResult : Except ε (Option ParsedRisk))
    (tx : Transaction) (now : Nat) : Except ε RiskAssessment :=
  match httpResult with
  | .ok parsed => .ok (LLMService.parseLMStudioResponse parsed tx now)
  | .error e => .error e

/-! ## Payment service (`src/services/payment.service.ts`) -/

def PaymentService.determineTransactionStatus (thresholds : RiskThresholds)
    (riskScore : ℚ) : TransactionStatus :=
  if riskScore ≥ thresholds.critical then .FAILED
  else if riskScore ≥ thresholds.high then .PENDING
  else if riskScore ≥ thresholds.medium then .PROCESSING
  else .SUCCESS

/-- Result of one `processTransaction` call: the returned transaction and
whether `llmService.assessTransactionRisk` was invoked for it. -/
structure ProcessOutcome where
  tx : Transaction
  llmCalled : Bool
deriving DecidableEq, Repr

/-- Model of `PaymentService.processTransaction(transaction)`.

Collaborator behaviours are explicit arguments:
* `ruleEval` — what `fraudRuleConfigService.evaluateRiskFromRules(transaction)`
  does: returns a result or throws (e.g. an invalid regex pattern in a rule
  makes `new RegExp` throw inside it); a throw lands in the outer `catch`.
* `llm` — what `await llmService.assessTransactionRisk(transaction)` does:
  resolves with an assessment or rejects; a rejection lands in the inner
  `catch` (rules-only path).
`cfg` backs `selectProvider` and `getThresholds`; `now` is the `new Date()`
instant written to `updatedAt`. -/
def PaymentService.processTransaction (ruleEval : Except Unit RuleEvalResult)
    (llm : Except Unit RiskAssessment) (cfg : FraudRuleConfig) (now : Nat)
    (tx : Transaction) : ProcessOutcome :=
  match ruleEval with
  | .error _ =>
    let t : Transaction := { tx with
      status := .FAILED,
      riskScore := some 1,
      explanation := some "Transaction processing failed due to system error",
      provider := some "error",
      updatedAt := now }
    { tx := t, llmCalled := false }
  | .ok fraudAssessment =>
    if fraudAssessment.blockedRules ≠ [] then
      let t : Transaction := { tx with
        status := .FAILED,
        riskScore := some 1,
        explanation := some ("Transaction blocked by fraud rules: " ++
          String.intercalate ", " fraudAssessment.blockedRules),
        provider := some "blocked",
        updatedAt := now }
      { tx := t, llmCalled := false }
    else
      let scoreExpl : ℚ × String :=
        match llm with
        | .ok riskAssessment =>
          (max fraudAssessment.score riskAssessment.riskScore,
           riskAssessment.explanation)
        | .error _ =>
          (fraudAssessment.score,
           "Transaction assessed using configurable fraud rules")
      let selectedProvider := FraudRuleConfigService.selectProvider cfg scoreExpl.1
      let t : Transaction := { tx with
        riskScore := some scoreExpl.1,
        explanation := some scoreExpl.2,
        provider := some selectedProvider,
        status := PaymentService.determineTransactionStatus
          (FraudRuleConfigService.getThresholds cfg) scoreExpl.1,
        updatedAt := now }
      { tx := t, llmCalled := true }

/-! ## Theorems -/

/-- A concrete transaction used to instantiate witnesses (the end-to-end
scenario input of the spec). -/
def sampleTx : Transaction :=
  { id := "txn_1", amount := 1000, currency := "USD", source := "tok_test",
    email := "donor@example.com", status := .PENDING, createdAt := 0,
    updatedAt := 0 }

/-- C8: with thresholds low < medium < high < critical, the status assigned
from a final score is FAILED for score ≥ critical, PENDING for
critical > score ≥ high, PROCESSING for high > score ≥ medium, SUCCESS for
score < medium; a score exactly at a boundary maps to the higher band
(medium ↦ PROCESSING, high ↦ PENDING, critical ↦ FAILED). -/
theorem determineTransactionStatus_bands (th : RiskThresholds) (s : ℚ)
    (hlm : th.low < th.medium) (hmh : th.medium < th.high)
    (hhc : th.high < th.critical) :
    (th.critical ≤ s → PaymentService.determineTransactionStatus th s = .FAILED) ∧
    (th.high ≤ s → s < th.critical →
      PaymentService.determineTransactionStatus th s = .PENDING) ∧
    (th.medium ≤ s → s < th.high →
      PaymentService.determineTransactionStatus th s = .PROCESSING) ∧
    (s < th.medium → PaymentService.determineTransactionStatus th s = .SUCCESS) ∧
    PaymentService.determineTransactionStatus th th.medium = .PROCESSING ∧
    PaymentService.determineTransactionStatus th th.high = .PENDING ∧
    PaymentService.determineTransactionStatus th th.critical = .FAILED := by
  unfold PaymentService.determineTransactionStatus
  refine ⟨fun h => ?_, fun h1 h2 => ?_, fun h1 h2 => ?_, fun h => ?_, ?_, ?_, ?_⟩ <;>
    split_ifs <;> first | rfl | (exfalso; linarith)

theorem determineTransactionStatus_bands_witness :
    PaymentService.determineTransactionStatus
      { low := 3/10, medium := 6/10, high := 8/10, critical := 9/10 } (6/10) =
      TransactionStatus.PROCESSING :=
  (determineTransactionStatus_bands
    { low := 3/10, medium := 6/10, high := 8/10, critical := 9/10 } (6/10)
    (by norm_num) (by norm_num) (by norm_num)).2.2.2.2.1

/-- C4: for a transaction that is not hard-blocked, a scorer success yields
final risk score `max ruleEngineScore modelScore` and the model's
explanation; a scorer failure yields the rule-engine score alone and the
rules-only explanation. -/
theorem processTransaction_score_combination (fa : RuleEvalResult)
    (llm : Except Unit RiskAssessment) (cfg : FraudRuleConfig) (now : Nat)
    (tx : Transaction) (hb : fa.blockedRules = []) :
    (∀ ra, llm = Except.ok ra →
      (PaymentService.processTransaction (Except.ok fa) llm cfg now tx).tx.riskScore =
        some (max fa.score ra.riskScore) ∧
      (PaymentService.processTransaction (Except.ok fa) llm cfg now tx).tx.explanation =
        some ra.explanation) ∧
    (llm = Except.error () →
      (PaymentService.processTransaction (Except.ok fa) llm cfg now tx).tx.riskScore =
        some fa.score ∧
      (PaymentService.processTransaction (Except.ok fa) llm cfg now tx).tx.explanation =
        some "Transaction assessed using configurable fraud rules") := by
  cases llm <;> simp [PaymentService.processTransaction, hb]

theorem processTransaction_score_combination_witness :
    (PaymentService.processTransaction
        (Except.ok { score := 3/10, factors := [], blockedRules := [] })
        (Except.ok { transactionId := "txn_1", riskScore := 7/10,
                     riskLevel := .HIGH, explanation := "model explanation",
                     factors := [], recommendations := [], assessedAt := 0 })
        FraudRuleConfigService.getDefaultConfig 0 sampleTx).tx.riskScore =
      some (max (3/10) (7/10)) ∧ max ((3:ℚ)/10) (7/10) = 7/10 :=
  ⟨((processTransaction_score_combination
      { score := 3/10, factors := [], blockedRules := [] }
      (Except.ok { transactionId := "txn_1", riskScore := 7/10,
                   riskLevel := .HIGH, explanation := "model explanation",
                   factors := [], recommendations := [], assessedAt := 0 })
      FraudRuleConfigService.getDefaultConfig 0 sampleTx rfl).1 _ rfl).1,
   max_eq_right (by norm_num)⟩

/-- C3 counterexample: on a hard-blocked transaction the explanation written
by the code is "Transaction blocked by fraud rules: " followed by the joined
names — it is not the string "blocked by rules: " followed by the joined
names that the claim asserts. -/
theorem processTransaction_blocked_explanation_cex :
    (PaymentService.processTransaction
        (Except.ok { score := 1/2, factors := [],
                     blockedRules := ["suspicious_email_domain"] })
        (Except.error ()) FraudRuleConfigService.getDefaultConfig 0
        sampleTx).tx.explanation ≠
      some ("blocked by rules: " ++ "suspicious_email_domain") ∧
    (PaymentService.processTransaction
        (Except.ok { score := 1/2, factors := [],
                     blockedRules := ["suspicious_email_domain"] })
        (Except.error ()) FraudRuleConfigService.getDefaultConfig 0
        sampleTx).tx.explanation =
      some "Transaction blocked by fraud rules: suspicious_email_domain" := by
  constructor <;> decide

/-- C3 (amended): for a transaction whose fraud-rule evaluation yields a
non-empty blocked-rule list, `processTransaction` returns immediately with
status FAILED, riskScore 1.0, provider "blocked", and explanation
"Transaction blocked by fraud rules: " followed by the rule names joined
with ", "; the model-based scorer is never invoked. -/
theorem processTransaction_blocked_precedence (fa : RuleEvalResult)
    (llm : Except Unit RiskAssessment) (cfg : FraudRuleConfig) (now : Nat)
    (tx : Transaction) (hb : fa.blockedRules ≠ []) :
    (PaymentService.processTransaction (Except.ok fa) llm cfg now tx).llmCalled =
      false ∧
    (PaymentService.processTransaction (Except.ok fa) llm cfg now tx).tx.status =
      .FAILED ∧
    (PaymentService.processTransaction (Except.ok fa) llm cfg now tx).tx.riskScore =
      some 1 ∧
    (PaymentService.processTransaction (Except.ok fa) llm cfg now tx).tx.provider =
      some "blocked" ∧
    (PaymentService.processTransaction (Except.ok fa) llm cfg now tx).tx.explanation =
      some ("Transaction blocked by fraud rules: " ++
        String.intercalate ", " fa.blockedRules) := by
  simp [PaymentService.processTransaction, hb]

theorem processTransaction_blocked_precedence_witness :
    (PaymentService.processTransaction
        (Except.ok { score := 1/2, factors := [],
                     blockedRules := ["high_risk_country", "velocity_check"] })
        (Except.error ()) FraudRuleConfigService.getDefaultConfig 7
        sampleTx).llmCalled = false ∧
    (PaymentService.processTransaction
        (Except.ok { score := 1/2, factors := [],
                     blockedRules := ["high_risk_country", "velocity_check"] })
        (Except.error ()) FraudRuleConfigService.getDefaultConfig 7
        sampleTx).tx.provider = some "blocked" :=
  have h := processTransaction_blocked_precedence
    { score := 1/2, factors := [], blockedRules := ["high_risk_country", "velocity_check"] }
    (Except.error ()) FraudRuleConfigService.getDefaultConfig 7 sampleTx (by decide)
  ⟨h.1, h.2.2.2.1⟩

/-- C2: whatever the collaborators do — the rule engine returning or
throwing, the scorer resolving or rejecting — `processTransaction` returns a
transaction with riskScore, explanation and provider populated and
`updatedAt` stamped; when the rule-engine step throws, the result is the
conservative error shape: status FAILED, riskScore 1.0, provider "error",
generic system-error explanation. -/
theorem processTransaction_never_throws (ruleEval : Except Unit RuleEvalResult)
    (llm : Except Unit RiskAssessment) (cfg : FraudRuleConfig) (now : Nat)
    (tx : Transaction) :
    (PaymentService.processTransaction ruleEval llm cfg now tx).tx.riskScore.isSome =
      true ∧
    (PaymentService.processTransaction ruleEval llm cfg now tx).tx.explanation.isSome =
      true ∧
    (PaymentService.processTransaction ruleEval llm cfg now tx).tx.provider.isSome =
      true ∧
    (PaymentService.processTransaction ruleEval llm cfg now tx).tx.updatedAt = now ∧
    (PaymentService.processTransaction ruleEval llm cfg now tx).tx.id = tx.id ∧
    (ruleEval = Except.error () →
      (PaymentService.processTransaction ruleEval llm cfg now tx).tx.status =
        .FAILED ∧
      (PaymentService.processTransaction ruleEval llm cfg now tx).tx.riskScore =
        some 1 ∧
      (PaymentService.processTransaction ruleEval llm cfg now tx).tx.provider =
        some "error" ∧
      (PaymentService.processTransaction ruleEval llm cfg now tx).tx.explanation =
        some "Transaction processing failed due to system error") := by
  cases ruleEval with
  | error e => simp [PaymentService.processTransaction]
  | ok fa =>
    by_cases hb : fa.blockedRules = []
    · cases llm <;> simp [PaymentService.processTransaction, hb]
    · simp [PaymentService.processTransaction, hb]

theorem processTransaction_never_throws_witness :
    (PaymentService.processTransaction (Except.error ()) (Except.error ())
        FraudRuleConfigService.getDefaultConfig 3 sampleTx).tx.status =
      TransactionStatus.FAILED ∧
    (PaymentService.processTransaction (Except.error ()) (Except.error ())
        FraudRuleConfigService.getDefaultConfig 3 sampleTx).tx.provider =
      some "error" :=
  have h := processTransaction_never_throws (Except.error ()) (Except.error ())
    FraudRuleConfigService.getDefaultConfig 3 sampleTx
  have h2 := h.2.2.2.2.2 rfl
  ⟨h2.1, h2.2.2.1⟩

/-- A rule matches a transaction when all of its conditions evaluate true
(evaluation is conjunctive over the rule's conditions). -/
def ruleMatches (evalCond : FraudCondition → Transaction → Bool)
    (tx : Transaction) (r : FraudRule) : Bool :=
  r.conditions.all (fun c => evalCond c tx)

/-- The factor entry `evaluateRiskFromRules` records for a matched rule. -/
def matchedFactor (r : FraudRule) : RiskFactor :=
  { factor := r.name, weight := r.weight,
    description := String.intercalate ", " (r.conditions.map (·.description)) }

theorem evalStep_foldl (evalCond : FraudCondition → Transaction → Bool)
    (tx : Transaction) (l : List FraudRule) :
    ∀ (a : ℚ) (fs : List RiskFactor) (bs : List String),
      l.foldl (FraudRuleConfigService.evalStep evalCond tx) (a, fs, bs) =
        (a + ((l.filter (ruleMatches evalCond tx)).map (·.weight)).sum,
         fs ++ (l.filter (ruleMatches evalCond tx)).map matchedFactor,
         bs ++ ((l.filter (ruleMatches evalCond tx)).filter
             (fun r => r.action = FraudAction.block)).map (·.name)) := by
  induction l with
  | nil => intro a fs bs; simp
  | cons r l ih =>
    intro a fs bs
    by_cases h : (r.conditions.all fun c => evalCond c tx) = true
    · have hf : List.filter (ruleMatches evalCond tx) (r :: l) =
          r :: List.filter (ruleMatches evalCond tx) l := by
        simp [List.filter_cons, ruleMatches, h]
      have hstep : FraudRuleConfigService.evalStep evalCond tx (a, fs, bs) r =
          (a + r.weight, fs ++ [matchedFactor r],
           bs ++ if r.action = FraudAction.block then [r.name] else []) := by
        simp [FraudRuleConfigService.evalStep, h, matchedFactor]
      rw [List.foldl_cons, hstep, ih, hf]
      by_cases hb : r.action = FraudAction.block <;>
        simp [hb, add_assoc, List.filter_cons]
    · have h2 : (r.conditions.all fun c => evalCond c tx) = false := by
        simpa using h
      have hf : List.filter (ruleMatches evalCond tx) (r :: l) =
          List.filter (ruleMatches evalCond tx) l := by
        simp [List.filter_cons, ruleMatches, h2]
      have hstep : FraudRuleConfigService.evalStep evalCond tx (a, fs, bs) r =
          (a, fs, bs) := by
        simp [FraudRuleConfigService.evalStep, h2]
      rw [List.foldl_cons, hstep, ih, hf]

/-- C6: `evaluateRiskFromRules` returns score `min 1.0 (sum of the weights of
the matched rules)`, where a rule matches iff it is enabled and every one of
its conditions evaluates true on the transaction (conjunctive); disabled
rules are never counted; each matched rule contributes one factor whose
description joins its conditions' descriptions with ", "; and the
blocked-rule list is exactly the names of matched rules whose action is
"block", in rule order.  `evalCond` is the condition-evaluation primitive
(`evaluateCondition`), universally quantified. -/
theorem evaluateRiskFromRules_spec (evalCond : FraudCondition → Transaction → Bool)
    (cfg : FraudRuleConfig) (tx : Transaction) :
    FraudRuleConfigService.evaluateRiskFromRules evalCond cfg tx =
      { score := min 1 ((((cfg.rules.filter (·.enabled)).filter
            (ruleMatches evalCond tx)).map (·.weight)).sum),
        factors := ((cfg.rules.filter (·.enabled)).filter
            (ruleMatches evalCond tx)).map matchedFactor,
        blockedRules := (((cfg.rules.filter (·.enabled)).filter
            (ruleMatches evalCond tx)).filter
            (fun r => r.action = FraudAction.block)).map (·.name) } := by
  simp only [FraudRuleConfigService.evaluateRiskFromRules,
    FraudRuleConfigService.getRules, evalStep_foldl]
  simp

/-- C7: `selectProvider` works on the enabled providers sorted by ascending
priority; the tolerance ceilings are low = 0.3, medium = 0.6, high = 0.8;
it returns the name of the first provider whose ceiling is ≥ the score, the
last provider in priority order when none qualifies, and the hard-coded
"paypal" when no provider is enabled.  (Hypothesis: enabled providers have
non-empty names — the JavaScript `|| 'paypal'` would rewrite an empty-string
name.) -/
theorem selectProvider_spec (cfg : FraudRuleConfig) (s : ℚ)
    (hn : ∀ p ∈ FraudRuleConfigService.getProviders cfg, p.name ≠ "") :
    FraudRuleConfigService.getRiskToleranceThreshold .low = 3/10 ∧
    FraudRuleConfigService.getRiskToleranceThreshold .medium = 6/10 ∧
    FraudRuleConfigService.getRiskToleranceThreshold .high = 8/10 ∧
    (FraudRuleConfigService.getProviders cfg).Pairwise
      (fun a b => a.priority ≤ b.priority) ∧
    (FraudRuleConfigService.getProviders cfg).Perm
      (cfg.providers.filter (·.enabled)) ∧
    (∀ p, (FraudRuleConfigService.getProviders cfg).find?
        (fun p => s ≤ FraudRuleConfigService.getRiskToleranceThreshold
          p.riskTolerance) = some p →
      FraudRuleConfigService.selectProvider cfg s = p.name) ∧
    ((∀ p ∈ FraudRuleConfigService.getProviders cfg,
        ¬ s ≤ FraudRuleConfigService.getRiskToleranceThreshold p.riskTolerance) →
      ∀ q, (FraudRuleConfigService.getProviders cfg).getLast? = some q →
        FraudRuleConfigService.selectProvider cfg s = q.name) ∧
    (FraudRuleConfigService.getProviders cfg = [] →
      FraudRuleConfigService.selectProvider cfg s = "paypal") := by
  refine ⟨rfl, rfl, rfl, ?_, ?_, ?_, ?_, ?_⟩
  · have h := @List.sorted_mergeSort ProviderConfig
      (fun a b : ProviderConfig => decide (a.priority ≤ b.priority))
      (fun a b c hab hbc => by
        simp only [decide_eq_true_eq] at *; exact le_trans hab hbc)
      (fun a b => by
        simp only [Bool.or_eq_true, decide_eq_true_eq]; exact le_total _ _)
      (cfg.providers.filter (·.enabled))
    exact h.imp (fun hab => by simpa using hab)
  · exact List.mergeSort_perm _ _
  · intro p hp
    simp only [FraudRuleConfigService.selectProvider, hp]
  · intro hq q hlast
    have hfind : (FraudRuleConfigService.getProviders cfg).find?
        (fun p => s ≤ FraudRuleConfigService.getRiskToleranceThreshold
          p.riskTolerance) = none := by
      rw [List.find?_eq_none]
      intro p hp
      simpa using hq p hp
    simp only [FraudRuleConfigService.selectProvider, hfind, hlast]
    exact if_neg (hn q (List.mem_of_getLast?_eq_some hlast))
  · intro h
    simp only [FraudRuleConfigService.selectProvider, h, List.find?_nil,
      List.getLast?_nil]

theorem selectProvider_spec_witness :
    FraudRuleConfigService.selectProvider FraudRuleConfigService.getDefaultConfig
      (95/100) = "stripe" := by
  have hfilter : FraudRuleConfigService.getDefaultConfig.providers.filter (·.enabled) =
      [{ name := "paypal", priority := 1, riskTolerance := .medium, enabled := true },
       { name := "stripe", priority := 2, riskTolerance := .low, enabled := true }] := rfl
  have hps : FraudRuleConfigService.getProviders FraudRuleConfigService.getDefaultConfig =
      [{ name := "paypal", priority := 1, riskTolerance := .medium, enabled := true },
       { name := "stripe", priority := 2, riskTolerance := .low, enabled := true }] := by
    unfold FraudRuleConfigService.getProviders
    rw [hfilter]
    exact List.mergeSort_of_sorted (by decide)
  have h := selectProvider_spec FraudRuleConfigService.getDefaultConfig (95/100)
    (by rw [hps]; decide)
  have hq : ∀ p ∈ FraudRuleConfigService.getProviders
      FraudRuleConfigService.getDefaultConfig,
      ¬ (95/100 : ℚ) ≤ FraudRuleConfigService.getRiskToleranceThreshold
        p.riskTolerance := by
    rw [hps]
    intro p hp
    rcases List.mem_pair.mp hp with h' | h' <;> subst h' <;>
      norm_num [FraudRuleConfigService.getRiskToleranceThreshold]
  exact h.2.2.2.2.2.2.1 hq
    { name := "stripe", priority := 2, riskTolerance := .low, enabled := true }
    (by rw [hps]; rfl)

theorem retry_go_fail_all {ε α : Type} (op : Nat → Except ε α) (errs : Nat → ε)
    (hfail : ∀ i, op i = .error (errs i)) (maxAttempts : Nat) :
    ∀ n attempt lastError, attempt + n = maxAttempts → 1 ≤ attempt →
      RetryService.go op maxAttempts attempt lastError (attempt - 1) =
        (.error (some (errs (maxAttempts - 1))), maxAttempts) := by
  intro n
  induction n with
  | zero =>
    intro attempt lastError hsum h1
    rw [RetryService.go]
    rw [if_neg (by omega), hfail (attempt - 1)]
    simp only []
    rw [if_pos (by omega)]
    have h2 : attempt = maxAttempts := by omega
    subst h2
    have h3 : attempt - 1 + 1 = attempt := by omega
    rw [h3]
  | succ n ih =>
    intro attempt lastError hsum h1
    rw [RetryService.go]
    rw [if_neg (by omega), hfail (attempt - 1)]
    simp only []
    rw [if_neg (by omega)]
    have h3 : attempt - 1 + 1 = (attempt + 1) - 1 := by omega
    rw [h3]
    exact ih (attempt + 1) (some (errs (attempt - 1))) (by omega) (by omega)

theorem retry_go_succ {ε α : Type} (op : Nat → Except ε α) (v : α) (k : Nat)
    (hs : op k = .ok v) (hfail : ∀ i, i < k → ∃ e, op i = .error e)
    (maxAttempts : Nat) (hk : k < maxAttempts) :
    ∀ n attempt lastError, attempt + n = k + 1 → 1 ≤ attempt →
      RetryService.go op maxAttempts attempt lastError (attempt - 1) =
        (.ok v, k + 1) := by
  intro n
  induction n with
  | zero =>
    intro attempt lastError hsum h1
    have h2 : attempt - 1 = k := by omega
    rw [RetryService.go, if_neg (by omega), h2, hs]
  | succ n ih =>
    intro attempt lastError hsum h1
    obtain ⟨e, he⟩ := hfail (attempt - 1) (by omega)
    rw [RetryService.go, if_neg (by omega), he]
    simp only []
    rw [if_neg (by omega)]
    have h3 : attempt - 1 + 1 = (attempt + 1) - 1 := by omega
    rw [h3]
    exact ih (attempt + 1) (some e) (by omega) (by omega)

/-- C5: for `maxAttempts ≥ 1`, an operation failing on every attempt is
invoked exactly `maxAttempts` times and `execute`'s outcome is the
operation's last error itself (no synthetic wrapper); an operation failing
exactly `k` times (`k < maxAttempts`) and then succeeding makes `execute`
return the success value after exactly `k + 1` invocations. -/
theorem retry_execute_exhaustion_and_success {ε α : Type} (maxAttempts : Nat)
    (h1 : 1 ≤ maxAttempts) (opFail : Nat → Except ε α) (errs : Nat → ε)
    (hfail : ∀ i, opFail i = .error (errs i)) (opSucc : Nat → Except ε α)
    (v : α) (k : Nat) (hk : k < maxAttempts)
    (hsf : ∀ i, i < k → ∃ e, opSucc i = .error e) (hs : opSucc k = .ok v) :
    RetryService.execute opFail maxAttempts =
      (.error (some (errs (maxAttempts - 1))), maxAttempts) ∧
    RetryService.execute opSucc maxAttempts = (.ok v, k + 1) := by
  constructor
  · exact retry_go_fail_all opFail errs hfail maxAttempts (maxAttempts - 1) 1 none
      (by omega) (by omega)
  · exact retry_go_succ opSucc v k hs hsf maxAttempts hk k 1 none (by omega) (by omega)

theorem retry_execute_exhaustion_and_success_witness :
    RetryService.execute (fun _ => (Except.error 0 : Except Nat Nat)) 3 =
      (Except.error (some 0), 3) ∧
    RetryService.execute
        (fun n => if n = 0 then (Except.error 0 : Except Nat Nat)
                  else Except.ok 42) 3 =
      (Except.ok 42, 2) :=
  have h := retry_execute_exhaustion_and_success 3 (by decide)
    (fun _ => (Except.error 0 : Except Nat Nat)) (fun _ => 0) (fun _ => rfl)
    (fun n => if n = 0 then (Except.error 0 : Except Nat Nat)
              else Except.ok 42) 42 1
    (by decide)
    (fun i hi => by
      have h0 : i = 0 := by omega
      subst h0
      exact ⟨0, rfl⟩)
    rfl
  ⟨h.1, h.2⟩

theorem applyFailures_closed {ε α : Type} (opts : CircuitBreakerOptions α)
    (e : ε) (now : Nat) :
    ∀ k, 1 ≤ opts.failureThreshold → k ≤ opts.failureThreshold →
      CircuitBreaker.applyFailures opts {} now e k =
        if k < opts.failureThreshold then
          { state := .CLOSED, failureCount := k, successCount := 0,
            lastFailureTime := if k = 0 then none else some now,
            nextAttempt := none }
        else
          { state := .OPEN, failureCount := k, successCount := 0,
            lastFailureTime := some now,
            nextAttempt := some (now + opts.resetTimeout) } := by
  intro k
  induction k with
  | zero =>
    intro hT h0
    rw [if_pos (by omega)]
    rfl
  | succ k ih =>
    intro hT hk
    have ihh := ih hT (by omega)
    rw [if_pos (by omega)] at ihh
    rw [CircuitBreaker.applyFailures, ihh]
    by_cases hlt : k + 1 < opts.failureThreshold
    · rw [if_pos hlt]
      simp only [CircuitBreaker.execute, CircuitBreaker.checkTransition,
        CircuitBreaker.shouldAttemptReset, CircuitBreaker.onFailure]
      simp [if_neg (by omega : ¬ (k + 1 ≥ opts.failureThreshold))]
    · rw [if_neg hlt]
      simp only [CircuitBreaker.execute, CircuitBreaker.checkTransition,
        CircuitBreaker.shouldAttemptReset, CircuitBreaker.onFailure]
      simp [if_pos (by omega : k + 1 ≥ opts.failureThreshold)]

/-- C1: starting CLOSED with failure counter 0, `failureThreshold`
consecutive operation failures leave the breaker OPEN with
`nextAttempt = t0 + resetTimeout`; an `execute` before that instant
short-circuits to the fallback (or the service-unavailable outcome when no
fallback is configured) without calling the operation and without changing
the breaker; an `execute` at or after that instant moves the breaker to
HALF_OPEN and does invoke the operation — a success then yields state
CLOSED with failure counter 0, while a single failure immediately yields
state OPEN again (no fresh threshold of failures needed). -/
theorem circuitBreaker_trip_reset_cycle {ε α : Type}
    (opts : CircuitBreakerOptions α) (e : ε) (a : α) (t0 t1 t2 : Nat)
    (hT : 1 ≤ opts.failureThreshold) (hR : 1 ≤ opts.resetTimeout)
    (op : Except ε α) (cbOpen : CircuitBreaker)
    (hcb : cbOpen = CircuitBreaker.applyFailures opts {} t0 e
      opts.failureThreshold) :
    cbOpen.state = .OPEN ∧
    cbOpen.failureCount = opts.failureThreshold ∧
    cbOpen.nextAttempt = some (t0 + opts.resetTimeout) ∧
    (t1 < t0 + opts.resetTimeout →
      cbOpen.execute opts t1 op = (cbOpen, CircuitBreaker.callFallback opts)) ∧
    (t0 + opts.resetTimeout ≤ t2 →
      (cbOpen.checkTransition t2).state = .HALF_OPEN ∧
      (cbOpen.execute opts t2 (Except.ok a : Except ε α)).2 = .result a ∧
      (cbOpen.execute opts t2 (Except.ok a : Except ε α)).1.state = .CLOSED ∧
      (cbOpen.execute opts t2 (Except.ok a : Except ε α)).1.failureCount = 0 ∧
      (cbOpen.execute opts t2 (Except.error e : Except ε α)).2 = .raised e ∧
      (cbOpen.execute opts t2 (Except.error e : Except ε α)).1.state = .OPEN ∧
      (cbOpen.execute opts t2 (Except.error e : Except ε α)).1.nextAttempt =
        some (t2 + opts.resetTimeout)) := by
  have hopen := applyFailures_closed opts e t0 opts.failureThreshold hT le_rfl
  rw [if_neg (by omega)] at hopen
  rw [hcb, hopen]
  refine ⟨rfl, rfl, rfl, fun h1 => ?_, fun h2 => ?_⟩
  · have hd : ¬ (t1 ≥ t0 + opts.resetTimeout) := by omega
    simp [CircuitBreaker.execute, CircuitBreaker.checkTransition,
      CircuitBreaker.shouldAttemptReset, hd]
  · have hd : t2 ≥ t0 + opts.resetTimeout := by omega
    have hge : opts.failureThreshold + 1 ≥ opts.failureThreshold := by omega
    refine ⟨?_, ?_, ?_, ?_, ?_, ?_, ?_⟩ <;>
      simp [CircuitBreaker.execute, CircuitBreaker.checkTransition,
        CircuitBreaker.shouldAttemptReset, CircuitBreaker.onSuccess,
        CircuitBreaker.onFailure, hd, hge]

/-- Concrete circuit-breaker options for the C1 witness: threshold 2,
reset timeout 10 ms, no fallback configured. -/
def cbOptsW : CircuitBreakerOptions Nat :=
  { failureThreshold := 2, resetTimeout := 10, monitoringPeriod := 0 }

theorem circuitBreaker_trip_reset_cycle_witness :
    (CircuitBreaker.applyFailures cbOptsW {} 100 (0 : Nat) 2).state =
      CircuitBreakerState.OPEN ∧
    (CircuitBreaker.applyFailures cbOptsW {} 100 (0 : Nat) 2).execute cbOptsW
        105 (Except.error 0 : Except Nat Nat) =
      (CircuitBreaker.applyFailures cbOptsW {} 100 (0 : Nat) 2,
        ExecOutcome.unavailable) ∧
    ((CircuitBreaker.applyFailures cbOptsW {} 100 (0 : Nat) 2).execute cbOptsW
        110 (Except.ok 7 : Except Nat Nat)).1.state =
      CircuitBreakerState.CLOSED ∧
    ((CircuitBreaker.applyFailures cbOptsW {} 100 (0 : Nat) 2).execute cbOptsW
        110 (Except.error 0 : Except Nat Nat)).1.state =
      CircuitBreakerState.OPEN :=
  have h := circuitBreaker_trip_reset_cycle cbOptsW 0 7 100 105 110 (by decide)
    (by decide) (Except.error 0 : Except Nat Nat)
    (CircuitBreaker.applyFailures cbOptsW {} 100 0 2) rfl
  have h5 := h.2.2.2.2 (by decide)
  ⟨h.1, h.2.2.2.1 (by decide), h5.2.2.1, h5.2.2.2.2.2.1⟩

/-- C9 counterexample: when the remote model's reply parses to
`riskScore = 2` (valid JSON, out of range), `parseLMStudioResponse` passes
the value through unchanged and `processTransaction` writes
`riskScore = 2 ∉ [0,1]` to the transaction — the claimed invariant fails on
this input. -/
theorem riskScore_range_cex :
    (PaymentService.processTransaction
        (Except.ok { score := 0, factors := [], blockedRules := [] })
        (Except.ok (LLMService.parseLMStudioResponse
          (some { riskScore := 2, riskLevel := .HIGH, explanation := "m" })
          sampleTx 0))
        FraudRuleConfigService.getDefaultConfig 0 sampleTx).tx.riskScore =
      some 2 ∧
    ¬ ((2 : ℚ) ≤ 1) := by
  constructor
  · have hmax : max (0 : ℚ) 2 = 2 := max_eq_right (by norm_num)
    simp [PaymentService.processTransaction, LLMService.parseLMStudioResponse,
      hmax]
  · norm_num

/-- C9 (amended): the riskScore written by `processTransaction` lies in
[0,1] provided any rule-engine score it uses lies in [0,1] — which
`evaluateRiskFromRules` guarantees whenever all rule weights are
nonnegative — and any model score entering the max-combination lies in
[0,1].  The code does not clamp the parsed remote score, so an out-of-range
model score propagates (see the counterexample). -/
theorem riskScore_range_amended :
    (∀ (ruleEval : Except Unit RuleEvalResult)
       (llm : Except Unit RiskAssessment) (cfg : FraudRuleConfig) (now : Nat)
       (tx : Transaction),
      (∀ fa, ruleEval = Except.ok fa → 0 ≤ fa.score ∧ fa.score ≤ 1) →
      (∀ ra, llm = Except.ok ra → 0 ≤ ra.riskScore ∧ ra.riskScore ≤ 1) →
      ∀ q, (PaymentService.processTransaction ruleEval llm cfg now
          tx).tx.riskScore = some q → 0 ≤ q ∧ q ≤ 1) ∧
    (∀ (evalCond : FraudCondition → Transaction → Bool)
       (cfg : FraudRuleConfig) (tx : Transaction),
      (∀ r ∈ cfg.rules, 0 ≤ r.weight) →
      0 ≤ (FraudRuleConfigService.evaluateRiskFromRules evalCond cfg tx).score ∧
      (FraudRuleConfigService.evaluateRiskFromRules evalCond cfg tx).score ≤ 1) := by
  constructor
  · intro ruleEval llm cfg now tx hr hm q hq
    cases ruleEval with
    | error e =>
      simp [PaymentService.processTransaction] at hq
      subst hq
      norm_num
    | ok fa =>
      by_cases hb : fa.blockedRules = []
      · cases llm with
        | ok ra =>
          simp [PaymentService.processTransaction, hb] at hq
          obtain ⟨hr1, hr2⟩ := hr fa rfl
          obtain ⟨hm1, hm2⟩ := hm ra rfl
          subst hq
          exact ⟨le_trans hr1 (le_max_left _ _), max_le hr2 hm2⟩
        | error e =>
          simp [PaymentService.processTransaction, hb] at hq
          subst hq
          exact hr fa rfl
      · simp [PaymentService.processTransaction, hb] at hq
        subst hq
        norm_num
  · intro evalCond cfg tx hw
    simp only [FraudRuleConfigService.evaluateRiskFromRules,
      FraudRuleConfigService.getRules, evalStep_foldl, zero_add]
    constructor
    · refine le_min (by norm_num) (List.sum_nonneg ?_)
      intro x hx
      obtain ⟨r, hr, hrx⟩ := List.mem_map.mp hx
      have h1 := List.mem_filter.mp hr
      have h2 := List.mem_filter.mp h1.1
      subst hrx
      exact hw r h2.1
    · exact min_le_left _ _

theorem riskScore_range_amended_witness :
    (PaymentService.processTransaction
        (Except.ok { score := 0, factors := [], blockedRules := [] })
        (Except.error ()) FraudRuleConfigService.getDefaultConfig 0
        sampleTx).tx.riskScore = some 0 ∧
    (0 ≤ (0 : ℚ) ∧ (0 : ℚ) ≤ 1) :=
  have heval : (PaymentService.processTransaction
      (Except.ok { score := 0, factors := [], blockedRules := [] })
      (Except.error ()) FraudRuleConfigService.getDefaultConfig 0
      sampleTx).tx.riskScore = some 0 := by
    simp [PaymentService.processTransaction]
  ⟨heval,
    riskScore_range_amended.1
      (Except.ok { score := 0, factors := [], blockedRules := [] })
      (Except.error ()) FraudRuleConfigService.getDefaultConfig 0 sampleTx
      (fun fa hfa => by
        injection hfa with h
        subst h
        exact ⟨le_refl 0, by norm_num⟩)
      (fun ra hra => Except.noConfusion hra)
      0 heval⟩

/-- The circuit-breaker options `LLMService`'s constructor uses with the
default environment (threshold 5, reset timeout 30000 ms, monitoring period
60000 ms, no fallback function). -/
def llmBreakerOpts : CircuitBreakerOptions RiskAssessment :=
  { failureThreshold := 5, resetTimeout := 30000, monitoringPeriod := 60000 }

/-- C10: a scoring call that completes with an unparseable body is absorbed
by `parseLMStudioResponse` into the deterministic fallback assessment
(riskScore 0.5, riskLevel MEDIUM) instead of raising; the retry wrapper
therefore returns on the first attempt with exactly one invocation; and the
circuit breaker records the call as a success — success counter
incremented, consecutive-failure counter reset to 0 — not as a failure. -/
theorem parse_failure_fallback_retry_breaker (tx : Transaction)
    (now nowCb : Nat) (maxAttempts : Nat) (h1 : 1 ≤ maxAttempts)
    (cb : CircuitBreaker) (hcb : cb.state = .CLOSED)
    (opts : CircuitBreakerOptions RiskAssessment) :
    LLMService.callLMStudio (Except.ok none : Except Unit (Option ParsedRisk))
        tx now = Except.ok (LLMService.getFallbackResponse tx now) ∧
    (LLMService.getFallbackResponse tx now).riskScore = 1/2 ∧
    (LLMService.getFallbackResponse tx now).riskLevel = .MEDIUM ∧
    RetryService.execute
        (fun _ => LLMService.callLMStudio
          (Except.ok none : Except Unit (Option ParsedRisk)) tx now)
        maxAttempts =
      (Except.ok (LLMService.getFallbackResponse tx now), 1) ∧
    (cb.execute opts nowCb
        (RetryService.execute (fun _ => LLMService.callLMStudio
          (Except.ok none : Except Unit (Option ParsedRisk)) tx now)
          maxAttempts).1).1.successCount = cb.successCount + 1 ∧
    (cb.execute opts nowCb
        (RetryService.execute (fun _ => LLMService.callLMStudio
          (Except.ok none : Except Unit (Option ParsedRisk)) tx now)
          maxAttempts).1).1.failureCount = 0 ∧
    (cb.execute opts nowCb
        (RetryService.execute (fun _ => LLMService.callLMStudio
          (Except.ok none : Except Unit (Option ParsedRisk)) tx now)
          maxAttempts).1).2 =
      ExecOutcome.result (LLMService.getFallbackResponse tx now) := by
  have hretry : RetryService.execute
      (fun _ => LLMService.callLMStudio
        (Except.ok none : Except Unit (Option ParsedRisk)) tx now)
      maxAttempts =
      (Except.ok (LLMService.getFallbackResponse tx now), 1) := by
    rw [RetryService.execute, RetryService.go, if_neg (by omega)]
    rfl
  refine ⟨rfl, rfl, rfl, hretry, ?_, ?_, ?_⟩ <;>
    rw [hretry] <;>
    simp [CircuitBreaker.execute, CircuitBreaker.checkTransition,
      CircuitBreaker.onSuccess, hcb]

theorem parse_failure_fallback_retry_breaker_witness :
    RetryService.execute (fun _ => LLMService.callLMStudio
        (Except.ok none : Except Unit (Option ParsedRisk)) sampleTx 0) 3 =
      (Except.ok (LLMService.getFallbackResponse sampleTx 0), 1) ∧
    (CircuitBreaker.execute llmBreakerOpts {} 0
        (RetryService.execute (fun _ => LLMService.callLMStudio
          (Except.ok none : Except Unit (Option ParsedRisk)) sampleTx 0)
          3).1).1.successCount = 1 ∧
    (CircuitBreaker.execute llmBreakerOpts {} 0
        (RetryService.execute (fun _ => LLMService.callLMStudio
          (Except.ok none : Except Unit (Option ParsedRisk)) sampleTx 0)
          3).1).1.failureCount = 0 :=
  have h := parse_failure_fallback_retry_breaker sampleTx 0 0 3 (by decide) {}
    rfl llmBreakerOpts
  ⟨h.2.2.2.1, h.2.2.2.2.1, h.2.2.2.2.2.1⟩
